import Mathlib

/-!
# Exposure sweep of `A1/main.cpp`

A shallow embedding of `main` of `src/A1/main.cpp` (the acquisition loop of
lines 73-138, the handler, and the wait for Enter before the return) and the
properties of the sweep that follow from it.

Modelling decisions.

* `float` values are integer-valued binary32 numbers, carried as `Int`.
  `expoValue += expoStep` is the exact sum rounded to a 24-bit significand
  (round to nearest, ties to even): `floatAdd`.  Every number the program
  itself uses (`0`, `5e4`, `1e6`) is an integer.  Overflow to infinity
  (magnitudes from `2^128` on) is outside the model.
* The camera, the keyboard poll and the image writer are the environment.
  One `IterInput` gives, for one evaluation of the loop condition and the
  body that may follow it, the value returned by `waitKey(1)`, the outcome
  of `RetrieveResult`, the value returned by `imwrite` and the value
  returned by `waitKey(100)`.
* `StartGrabbing(n)` makes `IsGrabbing()` true until `n` grab results have
  been retrieved (comment at lines 96-97 of the source); a retrieved result
  counts whether or not `GrabSucceeded()`.
* The only exception modelled is the timeout of `RetrieveResult`
  (`TimeoutHandling_ThrowException`); the other SDK and OpenCV calls are
  taken to return normally.
* Standard input is the list of characters it delivers before end of file.
  The wait of line 150, `while (cin.get() != '\n');`, ends at the first
  newline; at end of file `cin.get()` returns `EOF` on every call and the
  wait never ends, so `main` does not return.
* The state carries a chronological `trace` of the calls the program makes,
  from which the saved files, the `SetValue` arguments and the printed
  lines are read off.  Two entries of the state are there for the statements
  only: `iterations` counts the bodies entered, and each `retrieve` and
  `imwrite` event records the `ExposureTime` the device had at that moment.
-/

namespace A1

/-- Number of images to be grabbed (line 37). -/
def c_countOfImagesToGrab : Nat := 100

/-- Rounding of a magnitude to a 24-bit significand: round to nearest, ties to even. -/
def roundNat24 (n : Nat) : Nat :=
  if n < 2 ^ 24 then n
  else
    let shift := Nat.log2 n - 23
    let q := n / 2 ^ shift
    let r := n % 2 ^ shift
    let half := 2 ^ (shift - 1)
    (if half < r ∨ (r = half ∧ q % 2 = 1) then q + 1 else q) * 2 ^ shift

/-- Nearest binary32 value of an integer. -/
def toFloat (z : Int) : Int := Int.sign z * (roundNat24 z.natAbs : Int)

/-- Addition of two `float` values: the exact sum, rounded to binary32. -/
def floatAdd (a b : Int) : Int := toFloat (a + b)

/-- The text `std::to_string` gives for an integer-valued `float` (format `%f`). -/
def to_string (v : Int) : String := toString v ++ ".000000"

/-- File name handed to `imwrite` (line 127). -/
def fileName (expoValue : Int) : String := ".//results//" ++ to_string expoValue ++ ".bmp"

/-- Outcome of `camera.RetrieveResult(5000, ptrGrabResult, TimeoutHandling_ThrowException)`. -/
inductive Retrieved
  | timeout
  | grabFailed
  | grabSucceeded
  deriving DecidableEq, Repr

/-- What the environment answers during one turn of the loop. -/
structure IterInput where
  /-- value returned by `waitKey(1)` in the loop condition -/
  key1 : Int
  /-- outcome of `RetrieveResult` -/
  retrieved : Retrieved
  /-- value returned by `imwrite` -/
  imwriteOk : Bool
  /-- value returned by `waitKey(100)` -/
  key100 : Int
  deriving DecidableEq, Repr

/-- Lines the program prints. -/
inductive Line
  /-- lines 108-114: gain, `current expo time: expoValue`, size, first pixel -/
  | frameInfo (expoValue : Int)
  /-- line 136: `Error: ` code and description of a failed grab -/
  | grabError
  /-- lines 143-144: `An exception occurred.` and its description -/
  | exception
  /-- line 149: `Press Enter to exit.` -/
  | pressEnter
  deriving DecidableEq, Repr

/-- Calls the program makes, in the order it makes them. -/
inductive Event
  /-- call of `waitKey(1)` in the loop condition, with the value returned -/
  | waitKey1 (key : Int)
  /-- call of `RetrieveResult`, with the `ExposureTime` of the device when it is issued -/
  | retrieve (exposureTime : Int) (r : Retrieved)
  /-- output on `cout` or `cerr` -/
  | print (l : Line)
  /-- call of `imwrite(file, frame)`: `tag` is `expoValue` at the call, `applied` the
  `ExposureTime` of the device when the frame was retrieved, `ok` the value returned -/
  | imwrite (file : String) (tag : Int) (applied : Int) (ok : Bool)
  /-- call of `waitKey(100)`, its value discarded -/
  | waitKey100
  /-- call of `expoTime.SetValue(v)` -/
  | setValue (v : Int)
  deriving DecidableEq, Repr

/-- The constants of a sweep; `main` fixes them. -/
structure SweepConfig where
  /-- initial `expoValue` (line 74) -/
  initialValue : Int
  /-- the increment `expoStep` (line 74) -/
  expoStep : Int
  /-- the bound of line 131 -/
  upperBound : Int
  /-- argument of `StartGrabbing` (line 86) -/
  countOfImagesToGrab : Nat
  deriving DecidableEq, Repr

/-- The constants written in `main`: `0.0f`, `5e4`, `1e6`, `c_countOfImagesToGrab`. -/
def hardCoded : SweepConfig :=
  { initialValue := 0, expoStep := 50000, upperBound := 1000000,
    countOfImagesToGrab := c_countOfImagesToGrab }

/-- Variables of `main` during the loop, the exposure node of the device, and the trace. -/
structure Sweep where
  /-- the variable `float expoValue` -/
  expoValue : Int
  /-- the variable `char c` -/
  c : Int
  /-- value of the `ExposureTime` node of the device -/
  exposureTime : Int
  /-- number of times the loop body has been entered -/
  iterations : Nat
  /-- calls made so far -/
  trace : List Event
  deriving DecidableEq, Repr

/-- State when the loop is reached: nothing has been applied to the device yet. -/
def start (cfg : SweepConfig) (deviceExposure : Int) : Sweep :=
  { expoValue := cfg.initialValue, c := 0, exposureTime := deviceExposure,
    iterations := 0, trace := [] }

/-- Result of `camera.IsGrabbing()`, from the number of grab results still to be retrieved. -/
def IsGrabbing (remaining : Nat) : Bool := decide (0 < remaining)

/-- The value of `waitKey(1) && camera.IsGrabbing()` (line 99). -/
def loopCondition (key : Int) (grabbing : Bool) : Bool := (key != 0) && grabbing

/-- How the loop body is left. -/
inductive Flow
  /-- the end of the body is reached -/
  | next
  /-- the `break` of line 131 is taken -/
  | brk
  /-- an exception leaves the body: `RetrieveResult` throws -/
  | throw
  deriving DecidableEq, Repr

/-- Why the loop is over. -/
inductive Stop
  /-- the poll `waitKey(1)` returned 0 -/
  | cancelled
  /-- the camera stopped: `IsGrabbing()` returned false -/
  | grabStopped
  /-- the `break` of line 131 -/
  | boundReached
  /-- exception thrown by `RetrieveResult` -/
  | timeout
  deriving DecidableEq, Repr

/-- Events of a good frame up to and including `waitKey(100)` (lines 102-128). -/
def frameEvents (inp : IterInput) (expoValue exposureTime : Int) : List Event :=
  [ .retrieve exposureTime .grabSucceeded,
    .print (.frameInfo expoValue),
    .imwrite (fileName expoValue) expoValue exposureTime inp.imwriteOk,
    .waitKey100 ]

/-- The loop body (lines 101-137). -/
def loopBody (cfg : SweepConfig) (inp : IterInput) (s : Sweep) : Flow × Sweep :=
  match inp.retrieved with
  | .timeout =>
    (.throw, { s with trace := s.trace ++ [.retrieve s.exposureTime .timeout] })
  | .grabFailed =>
    (.next, { s with trace := s.trace
                       ++ [.retrieve s.exposureTime .grabFailed, .print .grabError] })
  | .grabSucceeded =>
    let v := floatAdd s.expoValue cfg.expoStep
    if cfg.upperBound < v then
      (.brk, { s with expoValue := v,
                      trace := s.trace ++ frameEvents inp s.expoValue s.exposureTime })
    else
      (.next, { s with expoValue := v, exposureTime := v,
                       trace := s.trace ++ frameEvents inp s.expoValue s.exposureTime
                         ++ [.setValue v] })

/-- One evaluation of `c = waitKey(1) && camera.IsGrabbing()` (line 99): the value of
the condition, and the state with `c` assigned. -/
def evalCondition (key : Int) (remaining : Nat) (s : Sweep) : Bool × Sweep :=
  let b := loopCondition key (IsGrabbing remaining)
  (b, { s with c := if b then 1 else 0, trace := s.trace ++ [.waitKey1 key] })

/-- The `while` loop (lines 99-138); the first argument is the number of grab
results the camera still has to deliver before it stops grabbing. -/
def whileLoop (cfg : SweepConfig) (env : Nat → IterInput) : Nat → Sweep → Stop × Sweep
  | 0, s =>
    let inp := env s.iterations
    (if inp.key1 = 0 then .cancelled else .grabStopped, (evalCondition inp.key1 0 s).2)
  | r + 1, s =>
    let inp := env s.iterations
    let cond := evalCondition inp.key1 (r + 1) s
    if cond.1 then
      match loopBody cfg inp { cond.2 with iterations := s.iterations + 1 } with
      | (.next, s') => whileLoop cfg env r s'
      | (.brk, s') => (.boundReached, s')
      | (.throw, s') => (.timeout, s')
    else
      (.cancelled, cond.2)

/-- The environment of a run. -/
structure Env where
  /-- value of `ExposureTime` on the device before the program touches it -/
  deviceExposure : Int
  /-- answers of the environment, by number of loop bodies already entered -/
  iter : Nat → IterInput
  /-- characters standard input delivers before end of file -/
  stdin : List Char

/-- The sweep with given constants: `StartGrabbing` and the loop. -/
def sweep (cfg : SweepConfig) (env : Env) : Stop × Sweep :=
  whileLoop cfg env.iter cfg.countOfImagesToGrab (start cfg env.deviceExposure)

/-- The wait `while (cin.get() != '\n');` of line 150: whether it ends. It ends at the
first newline; once the input is exhausted every `cin.get()` returns `EOF`, which is not
a newline, and the loop goes on for ever. -/
def waitForEnter : List Char → Bool
  | [] => false
  | ch :: rest => if ch = Char.ofNat 10 then true else waitForEnter rest

/-- What `main` leaves behind: the value returned, if it returns, and the calls made. -/
structure Outcome where
  /-- value returned by `main`; `none` when the wait of line 150 never ends -/
  exitCode : Option Int
  /-- calls made -/
  trace : List Event
  deriving DecidableEq, Repr

/-- Value of `exitCode` when the `try` statement is left: it starts at 0 (line 42) and
the handler of `GenericException` sets it to 1 (line 145). -/
def exitCodeAfterTry : Stop → Int
  | .timeout => 1
  | _ => 0

/-- The function `main` (lines 39-156): the `try` block with its handler, the prompt,
the wait for Enter and the return of `exitCode`. -/
def main (env : Env) : Outcome :=
  let exitCode := exitCodeAfterTry (sweep hardCoded env).1
  let handler : List Event :=
    match (sweep hardCoded env).1 with
    | .timeout => [.print .exception]
    | _ => []
  { exitCode := if waitForEnter env.stdin then some exitCode else none,
    trace := (sweep hardCoded env).2.trace ++ handler ++ [.print .pressEnter] }

/-- Arguments of the `SetValue` calls in a trace, in order. -/
def setValues : List Event → List Int
  | [] => []
  | .setValue v :: t => v :: setValues t
  | _ :: t => setValues t

/-- Tags of the `imwrite` calls in a trace, in order. -/
def savedTags : List Event → List Int
  | [] => []
  | .imwrite _ tag _ _ :: t => tag :: savedTags t
  | _ :: t => savedTags t

/-- For each `imwrite` call, the exposure applied at retrieval. -/
def savedApplied : List Event → List Int
  | [] => []
  | .imwrite _ _ applied _ :: t => applied :: savedApplied t
  | _ :: t => savedApplied t

/-- File names of the `imwrite` calls in a trace, in order. -/
def savedFiles : List Event → List String
  | [] => []
  | .imwrite file _ _ _ :: t => file :: savedFiles t
  | _ :: t => savedFiles t

/-- File names of the `imwrite` calls that returned true: the files written. -/
def writtenFiles : List Event → List String
  | [] => []
  | .imwrite file _ _ true :: t => file :: writtenFiles t
  | _ :: t => writtenFiles t

/-- Lines printed in a trace, in order. -/
def printed : List Event → List Line
  | [] => []
  | .print l :: t => l :: printed t
  | _ :: t => printed t

/-- Number of `waitKey(1)` calls in a trace. -/
def polls : List Event → Nat
  | [] => 0
  | .waitKey1 _ :: t => polls t + 1
  | _ :: t => polls t

/-- Standard input on which Enter is pressed at once. -/
def enter : List Char := [Char.ofNat 10]

/-- An environment in which every grab succeeds, every write succeeds and no key is pressed. -/
def quiet : Nat → IterInput := fun _ =>
  { key1 := -1, retrieved := .grabSucceeded, imwriteOk := true, key100 := -1 }

/-- An environment in which the first grab result reports failure and all later ones succeed. -/
def oneFailure : Nat → IterInput := fun i =>
  if i = 0 then { key1 := -1, retrieved := .grabFailed, imwriteOk := true, key100 := -1 }
  else quiet i

/-- An environment in which the third call of `RetrieveResult` times out. -/
def timeoutThird : Nat → IterInput := fun i =>
  if i = 2 then { key1 := -1, retrieved := .timeout, imwriteOk := true, key100 := -1 }
  else quiet i

/-- An environment in which the first poll returns 0. -/
def cancelFirst : Nat → IterInput := fun _ =>
  { key1 := 0, retrieved := .grabSucceeded, imwriteOk := true, key100 := -1 }

/-- An environment in which the third poll returns 0. -/
def cancelThird : Nat → IterInput := fun i =>
  if i = 2 then { key1 := 0, retrieved := .grabSucceeded, imwriteOk := true, key100 := -1 }
  else quiet i

/-- An environment in which every grab succeeds and every `imwrite` returns false. -/
def writeFails : Nat → IterInput := fun _ =>
  { key1 := -1, retrieved := .grabSucceeded, imwriteOk := false, key100 := -1 }

/-! ## Rounding -/

theorem roundNat24_exact (n : Nat) (h : n < 2 ^ 24) : roundNat24 n = n := by
  unfold roundNat24
  rw [if_pos h]

theorem roundNat24_large (n : Nat) (h : 2 ^ 24 ≤ n) : 2 ^ 24 ≤ roundNat24 n := by
  have hn : n ≠ 0 := by
    intro h0
    rw [h0] at h
    exact absurd h (by decide)
  have hlog : 24 ≤ Nat.log2 n := (Nat.le_log2 hn).2 h
  have hself : 2 ^ Nat.log2 n ≤ n := Nat.log2_self_le hn
  have hsplit : 2 ^ 23 * 2 ^ (Nat.log2 n - 23) = 2 ^ Nat.log2 n := by
    rw [← Nat.pow_add]
    congr 1
    omega
  have hq : 2 ^ 23 ≤ n / 2 ^ (Nat.log2 n - 23) := by
    rw [Nat.le_div_iff_mul_le (Nat.pow_pos (by decide))]
    rw [hsplit]
    exact hself
  have hmono : (2 : Nat) ^ 24 ≤ 2 ^ Nat.log2 n := Nat.pow_le_pow_right (by decide) hlog
  have hnot : ¬ n < 2 ^ 24 := Nat.not_lt.2 h
  simp only [roundNat24, hnot, if_false]
  calc 2 ^ 24 ≤ 2 ^ Nat.log2 n := hmono
    _ = 2 ^ 23 * 2 ^ (Nat.log2 n - 23) := hsplit.symm
    _ ≤ n / 2 ^ (Nat.log2 n - 23) * 2 ^ (Nat.log2 n - 23) := Nat.mul_le_mul_right _ hq
    _ ≤ _ := by
      apply Nat.mul_le_mul_right
      split <;> omega

theorem toFloat_exact (z : Int) (hlo : -2 ^ 24 < z) (hhi : z < 2 ^ 24) : toFloat z = z := by
  have hn : z.natAbs < 2 ^ 24 := by omega
  rw [toFloat, roundNat24_exact _ hn]
  exact Int.sign_mul_natAbs z

theorem toFloat_gt (z : Int) (h : 1000000 < z) : 1000000 < toFloat z := by
  by_cases hz : z < 2 ^ 24
  · rw [toFloat_exact z (by omega) hz]
    exact h
  · have hn : 2 ^ 24 ≤ z.natAbs := by omega
    have hr := roundNat24_large _ hn
    have hs : Int.sign z = 1 := Int.sign_eq_one_of_pos (by omega)
    rw [toFloat, hs]
    omega

/-! ## Reading a trace -/

@[simp] theorem setValues_append (a b : List Event) :
    setValues (a ++ b) = setValues a ++ setValues b := by
  induction a with
  | nil => rfl
  | cons e t ih => cases e <;> simp [setValues, ih]

@[simp] theorem savedTags_append (a b : List Event) :
    savedTags (a ++ b) = savedTags a ++ savedTags b := by
  induction a with
  | nil => rfl
  | cons e t ih => cases e <;> simp [savedTags, ih]

@[simp] theorem savedApplied_append (a b : List Event) :
    savedApplied (a ++ b) = savedApplied a ++ savedApplied b := by
  induction a with
  | nil => rfl
  | cons e t ih => cases e <;> simp [savedApplied, ih]

@[simp] theorem savedFiles_append (a b : List Event) :
    savedFiles (a ++ b) = savedFiles a ++ savedFiles b := by
  induction a with
  | nil => rfl
  | cons e t ih => cases e <;> simp [savedFiles, ih]

@[simp] theorem printed_append (a b : List Event) :
    printed (a ++ b) = printed a ++ printed b := by
  induction a with
  | nil => rfl
  | cons e t ih => cases e <;> simp [printed, ih]

@[simp] theorem polls_append (a b : List Event) : polls (a ++ b) = polls a + polls b := by
  induction a with
  | nil => simp [polls]
  | cons e t ih =>
    cases e <;> simp [polls, ih]
    omega

/-! ## The loop body and the loop, case by case -/

theorem loopBody_timeout (cfg : SweepConfig) (inp : IterInput) (s : Sweep)
    (h : inp.retrieved = .timeout) :
    loopBody cfg inp s
      = (.throw, { s with trace := s.trace ++ [.retrieve s.exposureTime .timeout] }) := by
  simp [loopBody, h]

theorem loopBody_failed (cfg : SweepConfig) (inp : IterInput) (s : Sweep)
    (h : inp.retrieved = .grabFailed) :
    loopBody cfg inp s
      = (.next, { s with trace := s.trace
                    ++ [.retrieve s.exposureTime .grabFailed, .print .grabError] }) := by
  simp [loopBody, h]

theorem loopBody_break (cfg : SweepConfig) (inp : IterInput) (s : Sweep)
    (h : inp.retrieved = .grabSucceeded)
    (hv : cfg.upperBound < floatAdd s.expoValue cfg.expoStep) :
    loopBody cfg inp s
      = (.brk, { s with expoValue := floatAdd s.expoValue cfg.expoStep,
                        trace := s.trace ++ frameEvents inp s.expoValue s.exposureTime }) := by
  simp [loopBody, h, hv]

theorem loopBody_apply (cfg : SweepConfig) (inp : IterInput) (s : Sweep)
    (h : inp.retrieved = .grabSucceeded)
    (hv : ¬ cfg.upperBound < floatAdd s.expoValue cfg.expoStep) :
    loopBody cfg inp s
      = (.next, { s with expoValue := floatAdd s.expoValue cfg.expoStep,
                         exposureTime := floatAdd s.expoValue cfg.expoStep,
                         trace := s.trace ++ frameEvents inp s.expoValue s.exposureTime
                           ++ [.setValue (floatAdd s.expoValue cfg.expoStep)] }) := by
  simp [loopBody, h, hv]

theorem whileLoop_zero (cfg : SweepConfig) (env : Nat → IterInput) (s : Sweep) :
    whileLoop cfg env 0 s
      = (if (env s.iterations).key1 = 0 then .cancelled else .grabStopped,
          (evalCondition (env s.iterations).key1 0 s).2) := rfl

theorem whileLoop_cancel (cfg : SweepConfig) (env : Nat → IterInput) (r : Nat) (s : Sweep)
    (h : (env s.iterations).key1 = 0) :
    whileLoop cfg env (r + 1) s
      = (.cancelled, (evalCondition (env s.iterations).key1 (r + 1) s).2) := by
  simp [whileLoop, evalCondition, loopCondition, h]

theorem whileLoop_enter (cfg : SweepConfig) (env : Nat → IterInput) (r : Nat) (s : Sweep)
    (h : (env s.iterations).key1 ≠ 0) :
    whileLoop cfg env (r + 1) s
      = match loopBody cfg (env s.iterations)
          { (evalCondition (env s.iterations).key1 (r + 1) s).2 with
            iterations := s.iterations + 1 } with
        | (.next, s') => whileLoop cfg env r s'
        | (.brk, s') => (.boundReached, s')
        | (.throw, s') => (.timeout, s') := by
  simp [whileLoop, evalCondition, loopCondition, IsGrabbing, h]

/-- Hoare-style rule for the loop: `P` holds between turns, `Q` when the loop is left. -/
theorem whileLoop_rule (cfg : SweepConfig) (env : Nat → IterInput)
    (P : Sweep → Prop) (Q : Stop → Sweep → Prop)
    (hexit : ∀ key n s, P s → loopCondition key (IsGrabbing n) = false →
      Q (if key = 0 then .cancelled else .grabStopped) (evalCondition key n s).2)
    (hthrow : ∀ key n s e, P s →
      Q .timeout { (evalCondition key n s).2 with
        iterations := s.iterations + 1,
        trace := (evalCondition key n s).2.trace ++ [.retrieve e .timeout] })
    (hfail : ∀ key n s, P s →
      P { (evalCondition key n s).2 with
        iterations := s.iterations + 1,
        trace := (evalCondition key n s).2.trace
          ++ [.retrieve s.exposureTime .grabFailed, .print .grabError] })
    (hbrk : ∀ key n s inp, P s → cfg.upperBound < floatAdd s.expoValue cfg.expoStep →
      Q .boundReached { (evalCondition key n s).2 with
        iterations := s.iterations + 1,
        expoValue := floatAdd s.expoValue cfg.expoStep,
        trace := (evalCondition key n s).2.trace ++ frameEvents inp s.expoValue s.exposureTime })
    (happly : ∀ key n s inp, P s → ¬ cfg.upperBound < floatAdd s.expoValue cfg.expoStep →
      P { (evalCondition key n s).2 with
        iterations := s.iterations + 1,
        expoValue := floatAdd s.expoValue cfg.expoStep,
        exposureTime := floatAdd s.expoValue cfg.expoStep,
        trace := (evalCondition key n s).2.trace ++ frameEvents inp s.expoValue s.exposureTime
          ++ [.setValue (floatAdd s.expoValue cfg.expoStep)] }) :
    ∀ r s, P s → Q (whileLoop cfg env r s).1 (whileLoop cfg env r s).2 := by
  intro r
  induction r with
  | zero =>
    intro s hs
    rw [whileLoop_zero]
    exact hexit _ 0 s hs (by simp [loopCondition, IsGrabbing])
  | succ r ih =>
    intro s hs
    by_cases hk : (env s.iterations).key1 = 0
    · rw [whileLoop_cancel cfg env r s hk]
      have := hexit (env s.iterations).key1 (r + 1) s hs (by simp [loopCondition, hk])
      simpa [hk] using this
    · rw [whileLoop_enter cfg env r s hk]
      cases hr : (env s.iterations).retrieved with
      | timeout =>
        rw [loopBody_timeout _ _ _ hr]
        exact hthrow _ _ s _ hs
      | grabFailed =>
        rw [loopBody_failed _ _ _ hr]
        exact ih _ (hfail _ _ s hs)
      | grabSucceeded =>
        by_cases hv : cfg.upperBound < floatAdd s.expoValue cfg.expoStep
        · rw [loopBody_break _ _ _ hr (by simpa [evalCondition] using hv)]
          exact hbrk _ _ s _ hs hv
        · rw [loopBody_apply _ _ _ hr (by simpa [evalCondition] using hv)]
          exact ih _ (happly _ _ s _ hs hv)

/-! ## What `main` adds to the sweep -/

theorem waitForEnter_iff (l : List Char) :
    waitForEnter l = true ↔ Char.ofNat 10 ∈ l := by
  induction l with
  | nil => simp [waitForEnter]
  | cons ch rest ih =>
    by_cases h : ch = Char.ofNat 10
    · simp [waitForEnter, h]
    · have h' : ¬ Char.ofNat 10 = ch := fun e => h e.symm
      simp [waitForEnter, h, h', ih]

theorem main_exitCode (env : Env) :
    (main env).exitCode
      = if Char.ofNat 10 ∈ env.stdin then
          some (if (sweep hardCoded env).1 = .timeout then 1 else 0)
        else none := by
  have hw := waitForEnter_iff env.stdin
  by_cases hin : Char.ofNat 10 ∈ env.stdin
  · have ht : waitForEnter env.stdin = true := hw.2 hin
    simp only [main, ht, hin, if_true]
    cases (sweep hardCoded env).1 <;> simp [exitCodeAfterTry]
  · have hf : waitForEnter env.stdin = false := by
      cases hc : waitForEnter env.stdin
      · rfl
      · exact absurd (hw.1 hc) hin
    simp [main, hf, hin]

theorem main_trace (env : Env) :
    (main env).trace = (sweep hardCoded env).2.trace
      ++ (if (sweep hardCoded env).1 = .timeout then [.print .exception, .print .pressEnter]
          else [.print .pressEnter]) := by
  simp only [main]
  cases (sweep hardCoded env).1 <;> simp

theorem main_setValues (env : Env) :
    setValues (main env).trace = setValues (sweep hardCoded env).2.trace := by
  rw [main_trace]
  split <;> simp [setValues]

/-! ## Bound respect -/

theorem sweep_setValues_le (cfg : SweepConfig) (env : Env) :
    ∀ v ∈ setValues (sweep cfg env).2.trace, v ≤ cfg.upperBound := by
  refine whileLoop_rule cfg env.iter
    (fun s => ∀ v ∈ setValues s.trace, v ≤ cfg.upperBound)
    (fun _ s => ∀ v ∈ setValues s.trace, v ≤ cfg.upperBound)
    ?_ ?_ ?_ ?_ ?_ _ _ ?_
  · intro key n s hs _
    simpa [evalCondition, setValues] using hs
  · intro key n s e hs
    simpa [evalCondition, setValues] using hs
  · intro key n s hs
    simpa [evalCondition, setValues] using hs
  · intro key n s inp hs _
    simpa [evalCondition, setValues, frameEvents] using hs
  · intro key n s inp hs hv
    intro v hmem
    simp only [evalCondition, setValues_append, setValues, frameEvents, List.append_nil,
      List.mem_append, List.mem_singleton] at hmem
    rcases hmem with h | h
    · exact hs v h
    · rw [h]
      exact Int.not_lt.1 hv
  · intro v hv
    simp [start, setValues] at hv

/-- C1. Bound respect: in every run of `main`, every value passed to
`expoTime.SetValue` is at most `1e6`; and in any state, a good frame for which
`expoValue + expoStep` exceeds `1e6` leaves the body by `break` without a `SetValue`. -/
theorem main_setValue_within_bound (env : Env) :
    (∀ v ∈ setValues (main env).trace, v ≤ 1000000)
    ∧ ∀ (inp : IterInput) (s : Sweep), inp.retrieved = .grabSucceeded →
        1000000 < s.expoValue + 50000 →
        (loopBody hardCoded inp s).1 = .brk
        ∧ setValues (loopBody hardCoded inp s).2.trace = setValues s.trace := by
  constructor
  · rw [main_setValues]
    exact sweep_setValues_le hardCoded env
  · intro inp s hr hv
    have hv' : hardCoded.upperBound < floatAdd s.expoValue hardCoded.expoStep :=
      toFloat_gt _ hv
    rw [loopBody_break _ _ _ hr hv']
    simp [frameEvents, setValues]

theorem main_setValue_within_bound_witness :
    (50000 : Int) ≤ 1000000
    ∧ (loopBody hardCoded (quiet 0)
        { expoValue := 1000000, c := 1, exposureTime := 1000000, iterations := 21,
          trace := [] }).1 = .brk
    ∧ setValues (loopBody hardCoded (quiet 0)
        { expoValue := 1000000, c := 1, exposureTime := 1000000, iterations := 21,
          trace := [] }).2.trace = setValues [] :=
  ⟨(main_setValue_within_bound ⟨10000, quiet, enter⟩).1 50000 (by decide),
   (main_setValue_within_bound ⟨10000, quiet, enter⟩).2 (quiet 0)
      { expoValue := 1000000, c := 1, exposureTime := 1000000, iterations := 21,
        trace := [] } rfl (by decide)⟩

/-! ## Runs in which every grab succeeds and the poll never cancels -/

theorem whileLoop_good (cfg : SweepConfig) (env : Nat → IterInput) (r : Nat) (s : Sweep)
    (hk : (env s.iterations).key1 ≠ 0) (hg : (env s.iterations).retrieved = .grabSucceeded) :
    whileLoop cfg env (r + 1) s
      = if cfg.upperBound < floatAdd s.expoValue cfg.expoStep then
          (.boundReached,
            { expoValue := floatAdd s.expoValue cfg.expoStep, c := 1,
              exposureTime := s.exposureTime, iterations := s.iterations + 1,
              trace := s.trace ++ [.waitKey1 (env s.iterations).key1]
                ++ frameEvents (env s.iterations) s.expoValue s.exposureTime })
        else
          whileLoop cfg env r
            { expoValue := floatAdd s.expoValue cfg.expoStep, c := 1,
              exposureTime := floatAdd s.expoValue cfg.expoStep,
              iterations := s.iterations + 1,
              trace := s.trace ++ [.waitKey1 (env s.iterations).key1]
                ++ frameEvents (env s.iterations) s.expoValue s.exposureTime
                ++ [.setValue (floatAdd s.expoValue cfg.expoStep)] } := by
  rw [whileLoop_enter cfg env r s hk]
  by_cases hv : cfg.upperBound < floatAdd s.expoValue cfg.expoStep
  · rw [loopBody_break _ _ _ hg (by simpa [evalCondition] using hv), if_pos hv]
    simp [evalCondition, loopCondition, IsGrabbing, hk, frameEvents]
  · rw [loopBody_apply _ _ _ hg (by simpa [evalCondition] using hv), if_neg hv]
    simp [evalCondition, loopCondition, IsGrabbing, hk, frameEvents]

/-- C2. Scenario: with initial value 0, step 500000, bound 1000000 and 100 frames
requested, every grab succeeding and the poll never zero, the loop handles exactly
three frames, tagged 0, 500000 and 1000000 in that order, and is left by the `break`. -/
theorem scenario_three_frames (env : Env)
    (hgrab : ∀ i, (env.iter i).retrieved = .grabSucceeded)
    (hpoll : ∀ i, (env.iter i).key1 ≠ 0) :
    savedTags (sweep ⟨0, 500000, 1000000, 100⟩ env).2.trace = [0, 500000, 1000000]
    ∧ (sweep ⟨0, 500000, 1000000, 100⟩ env).1 = .boundReached
    ∧ (sweep ⟨0, 500000, 1000000, 100⟩ env).2.iterations = 3 := by
  have e1 : floatAdd 0 500000 = 500000 := by decide
  have e2 : floatAdd 500000 500000 = 1000000 := by decide
  have e3 : floatAdd 1000000 500000 = 1500000 := by decide
  unfold sweep start
  simp only []
  rw [whileLoop_good _ _ _ _ (hpoll _) (hgrab _)]
  simp only [e1]
  rw [if_neg (by decide)]
  rw [whileLoop_good _ _ _ _ (hpoll _) (hgrab _)]
  simp only [e2]
  rw [if_neg (by decide)]
  rw [whileLoop_good _ _ _ _ (hpoll _) (hgrab _)]
  simp only [e3]
  rw [if_pos (by decide)]
  simp [frameEvents, savedTags]

theorem scenario_three_frames_witness :
    (∀ i, (quiet i).retrieved = .grabSucceeded) ∧ (∀ i, (quiet i).key1 ≠ 0)
    ∧ savedTags (sweep ⟨0, 500000, 1000000, 100⟩ ⟨10000, quiet, enter⟩).2.trace
        = [0, 500000, 1000000]
    ∧ (sweep ⟨0, 500000, 1000000, 100⟩ ⟨10000, quiet, enter⟩).1 = .boundReached
    ∧ (sweep ⟨0, 500000, 1000000, 100⟩ ⟨10000, quiet, enter⟩).2.iterations = 3 :=
  ⟨fun _ => rfl, fun _ => by simp [quiet],
    scenario_three_frames ⟨10000, quiet, enter⟩ (fun _ => rfl) (fun _ => by simp [quiet])⟩

/-! ## How many turns the loop takes -/

theorem whileLoop_iterations_le (cfg : SweepConfig) (env : Nat → IterInput) :
    ∀ r s, (whileLoop cfg env r s).2.iterations ≤ s.iterations + r := by
  intro r
  induction r with
  | zero =>
    intro s
    simp [whileLoop_zero, evalCondition]
  | succ r ih =>
    intro s
    by_cases hk : (env s.iterations).key1 = 0
    · rw [whileLoop_cancel cfg env r s hk]
      simp [evalCondition]
    · rw [whileLoop_enter cfg env r s hk]
      cases hr : (env s.iterations).retrieved with
      | timeout =>
        rw [loopBody_timeout _ _ _ hr]
        simp
      | grabFailed =>
        rw [loopBody_failed _ _ _ hr]
        refine le_trans (ih _) ?_
        simp
        omega
      | grabSucceeded =>
        by_cases hv : cfg.upperBound < floatAdd s.expoValue cfg.expoStep
        · rw [loopBody_break _ _ _ hr (by simpa [evalCondition] using hv)]
          simp
        · rw [loopBody_apply _ _ _ hr (by simpa [evalCondition] using hv)]
          refine le_trans (ih _) ?_
          simp
          omega

theorem sweep_good_frames_le (cfg : SweepConfig) (env : Env)
    (hstep : 0 < cfg.expoStep) (hle : cfg.initialValue ≤ cfg.upperBound)
    (hlo : -2 ^ 24 < cfg.initialValue) (hhi : cfg.upperBound + cfg.expoStep < 2 ^ 24) :
    ((savedTags (sweep cfg env).2.trace).length : Int)
      ≤ (cfg.upperBound - cfg.initialValue + cfg.expoStep - 1) / cfg.expoStep + 1 := by
  have key : ∃ k : Nat, (savedTags (sweep cfg env).2.trace).length ≤ k + 1
      ∧ cfg.initialValue + k * cfg.expoStep ≤ cfg.upperBound := by
    refine whileLoop_rule cfg env.iter
      (fun s => s.expoValue = cfg.initialValue + (savedTags s.trace).length * cfg.expoStep
        ∧ s.expoValue ≤ cfg.upperBound)
      (fun _ s => ∃ k : Nat, (savedTags s.trace).length ≤ k + 1
        ∧ cfg.initialValue + k * cfg.expoStep ≤ cfg.upperBound)
      ?_ ?_ ?_ ?_ ?_ _ _ ?_
    · rintro key n s ⟨h1, h2⟩ _
      refine ⟨(savedTags s.trace).length, ?_, ?_⟩
      · simp [evalCondition, savedTags]
      · rw [← h1]
        exact h2
    · rintro key n s e ⟨h1, h2⟩
      refine ⟨(savedTags s.trace).length, ?_, ?_⟩
      · simp [evalCondition, savedTags]
      · rw [← h1]
        exact h2
    · rintro key n s ⟨h1, h2⟩
      simpa [evalCondition, savedTags] using And.intro h1 h2
    · rintro key n s inp ⟨h1, h2⟩ _
      refine ⟨(savedTags s.trace).length, ?_, ?_⟩
      · simp [evalCondition, savedTags, frameEvents]
      · rw [← h1]
        exact h2
    · rintro key n s inp ⟨h1, h2⟩ hv
      have hnn : (0 : Int) ≤ ((savedTags s.trace).length : Int) * cfg.expoStep :=
        Int.mul_nonneg (Int.ofNat_nonneg _) (le_of_lt hstep)
      have hex : floatAdd s.expoValue cfg.expoStep = s.expoValue + cfg.expoStep :=
        toFloat_exact _ (by omega) (by omega)
      rw [hex] at hv ⊢
      constructor
      · simp only [evalCondition, savedTags_append, savedTags, frameEvents, List.append_nil,
          List.length_append, List.length_singleton, List.length_nil]
        rw [h1]
        push_cast
        ring
      · exact Int.not_lt.1 hv
    · simp [start, savedTags]
      exact hle
  obtain ⟨k, hk1, hk2⟩ := key
  have hk3 : (k : Int) ≤ (cfg.upperBound - cfg.initialValue) / cfg.expoStep :=
    Int.le_ediv_of_mul_le hstep (by omega)
  have hk4 : (cfg.upperBound - cfg.initialValue) / cfg.expoStep
      ≤ (cfg.upperBound - cfg.initialValue + cfg.expoStep - 1) / cfg.expoStep :=
    Int.ediv_le_ediv hstep (by omega)
  omega

/-- C3, as amended. For a configuration with a positive step and an initial value not
above the bound (integers small enough for the `float` additions to be exact) and for
every environment, the loop body runs at most `countOfImagesToGrab` times, and at most
`⌈(upperBound - initialValue) / expoStep⌉ + 1` of these turns have a successful grab;
with the constants of `main`: at most 100 turns, at most 21 of them with a good frame. -/
theorem sweep_iteration_bounds (cfg : SweepConfig) (env : Env)
    (hstep : 0 < cfg.expoStep) (hle : cfg.initialValue ≤ cfg.upperBound)
    (hlo : -2 ^ 24 < cfg.initialValue) (hhi : cfg.upperBound + cfg.expoStep < 2 ^ 24) :
    (sweep cfg env).2.iterations ≤ cfg.countOfImagesToGrab
    ∧ ((savedTags (sweep cfg env).2.trace).length : Int)
        ≤ (cfg.upperBound - cfg.initialValue + cfg.expoStep - 1) / cfg.expoStep + 1
    ∧ ∀ env' : Env, (sweep hardCoded env').2.iterations ≤ 100
        ∧ (savedTags (sweep hardCoded env').2.trace).length ≤ 21 := by
  refine ⟨?_, sweep_good_frames_le cfg env hstep hle hlo hhi, ?_⟩
  · have := whileLoop_iterations_le cfg env.iter cfg.countOfImagesToGrab
      (start cfg env.deviceExposure)
    simpa [sweep, start] using this
  · intro env'
    constructor
    · have := whileLoop_iterations_le hardCoded env'.iter hardCoded.countOfImagesToGrab
        (start hardCoded env'.deviceExposure)
      simpa [sweep, start, hardCoded, c_countOfImagesToGrab] using this
    · have := sweep_good_frames_le hardCoded env' (by decide) (by decide) (by decide)
        (by decide)
      have h21 : (hardCoded.upperBound - hardCoded.initialValue + hardCoded.expoStep - 1)
          / hardCoded.expoStep + 1 = 21 := by decide
      rw [h21] at this
      exact_mod_cast this

theorem sweep_iteration_bounds_witness :
    (sweep ⟨0, 500000, 1000000, 100⟩ ⟨10000, oneFailure, enter⟩).2.iterations ≤ 100
    ∧ ((savedTags
          (sweep ⟨0, 500000, 1000000, 100⟩
            ⟨10000, oneFailure, enter⟩).2.trace).length : Int)
        ≤ (1000000 - 0 + 500000 - 1) / 500000 + 1
    ∧ ∀ env' : Env, (sweep hardCoded env').2.iterations ≤ 100
        ∧ (savedTags (sweep hardCoded env').2.trace).length ≤ 21 :=
  sweep_iteration_bounds ⟨0, 500000, 1000000, 100⟩ ⟨10000, oneFailure, enter⟩
    (by decide) (by decide) (by decide) (by decide)

/-- C3, counterexample. With the constants of `main`, a first grab that fails and
successful grabs after it, the loop body runs 22 times: more than
`min(100, ⌈(1e6 - 0) / 5e4⌉ + 1) = 21`. -/
theorem failed_grab_exceeds_claimed_bound :
    0 < hardCoded.expoStep ∧ hardCoded.initialValue ≤ hardCoded.upperBound
    ∧ (sweep hardCoded ⟨10000, oneFailure, enter⟩).2.iterations = 22
    ∧ ¬ (((sweep hardCoded ⟨10000, oneFailure, enter⟩).2.iterations : Int)
          ≤ min (hardCoded.countOfImagesToGrab : Int)
              ((hardCoded.upperBound - hardCoded.initialValue + hardCoded.expoStep - 1)
                / hardCoded.expoStep + 1)) := by
  decide

/-- Rounding can stall a sweep: `2^24 + 1` is not a `float`, and the sum rounds back. -/
theorem floatAdd_stalls : floatAdd 16777216 1 = 16777216 := by
  have hlog : Nat.log2 16777217 = 24 := by
    apply Nat.eq_of_le_of_lt_succ
    · exact (Nat.le_log2 (by decide)).2 (by decide)
    · exact (Nat.log2_lt (by decide)).2 (by decide)
  have hr : roundNat24 16777217 = 16777216 := by
    unfold roundNat24
    rw [hlog]
    decide
  have hsum : ((16777216 : Int) + 1).natAbs = 16777217 := by decide
  rw [floatAdd, toFloat, hsum, hr]
  decide

/-! ## Which value names a frame -/

theorem tail_eq_of_concat {α : Type} (a b S : List α) (x y p q : α)
    (ha : a ++ [x] = p :: S) (hb : b ++ [y] = q :: S) : a.tail = b.tail := by
  have ha' : a = (p :: S).dropLast := by rw [← ha, List.dropLast_concat]
  have hb' : b = (q :: S).dropLast := by rw [← hb, List.dropLast_concat]
  rw [ha', hb']
  cases S <;> simp [List.dropLast]

theorem head_of_concat {α : Type} (a S : List α) (x p : α) (ha : a ++ [x] = p :: S) :
    ∀ h ∈ a.head?, h = p := by
  cases a with
  | nil => simp
  | cons h t =>
    simp only [List.cons_append, List.cons.injEq] at ha
    simp [ha.1]

/-- Tags, applied exposures, `SetValue` arguments and file names of a sweep, related. -/
theorem sweep_tagging (cfg : SweepConfig) (env : Env) :
    (savedTags (sweep cfg env).2.trace).tail = (savedApplied (sweep cfg env).2.trace).tail
    ∧ (∀ tag ∈ (savedTags (sweep cfg env).2.trace).head?, tag = cfg.initialValue)
    ∧ (∀ a ∈ (savedApplied (sweep cfg env).2.trace).head?, a = env.deviceExposure)
    ∧ setValues (sweep cfg env).2.trace
        <+: (savedTags (sweep cfg env).2.trace).map (fun tag => floatAdd tag cfg.expoStep)
    ∧ savedFiles (sweep cfg env).2.trace
        = (savedTags (sweep cfg env).2.trace).map fileName := by
  have key : ∃ (e d : Int) (S : List Int),
      savedTags (sweep cfg env).2.trace ++ [e] = cfg.initialValue :: S
      ∧ savedApplied (sweep cfg env).2.trace ++ [d] = env.deviceExposure :: S
      ∧ setValues (sweep cfg env).2.trace
          <+: (savedTags (sweep cfg env).2.trace).map (fun tag => floatAdd tag cfg.expoStep)
      ∧ savedFiles (sweep cfg env).2.trace
          = (savedTags (sweep cfg env).2.trace).map fileName := by
    refine whileLoop_rule cfg env.iter
      (fun s => savedTags s.trace ++ [s.expoValue] = cfg.initialValue :: setValues s.trace
        ∧ savedApplied s.trace ++ [s.exposureTime] = env.deviceExposure :: setValues s.trace
        ∧ setValues s.trace = (savedTags s.trace).map (fun tag => floatAdd tag cfg.expoStep)
        ∧ savedFiles s.trace = (savedTags s.trace).map fileName)
      (fun _ s => ∃ (e d : Int) (S : List Int),
        savedTags s.trace ++ [e] = cfg.initialValue :: S
        ∧ savedApplied s.trace ++ [d] = env.deviceExposure :: S
        ∧ setValues s.trace <+: (savedTags s.trace).map (fun tag => floatAdd tag cfg.expoStep)
        ∧ savedFiles s.trace = (savedTags s.trace).map fileName)
      ?_ ?_ ?_ ?_ ?_ _ _ ?_
    · rintro key n s ⟨hA, hB, hC, hD⟩ _
      refine ⟨s.expoValue, s.exposureTime, setValues s.trace, ?_, ?_, ?_, ?_⟩
      · simpa [evalCondition, savedTags, setValues] using hA
      · simpa [evalCondition, savedApplied, setValues] using hB
      · simp [evalCondition, savedTags, setValues, hC]
      · simpa [evalCondition, savedTags, savedFiles] using hD
    · rintro key n s e ⟨hA, hB, hC, hD⟩
      refine ⟨s.expoValue, s.exposureTime, setValues s.trace, ?_, ?_, ?_, ?_⟩
      · simpa [evalCondition, savedTags, setValues] using hA
      · simpa [evalCondition, savedApplied, setValues] using hB
      · simp [evalCondition, savedTags, setValues, hC]
      · simpa [evalCondition, savedTags, savedFiles] using hD
    · rintro key n s ⟨hA, hB, hC, hD⟩
      refine ⟨?_, ?_, ?_, ?_⟩
      · simpa [evalCondition, savedTags, setValues] using hA
      · simpa [evalCondition, savedApplied, setValues] using hB
      · simpa [evalCondition, savedTags, setValues] using hC
      · simpa [evalCondition, savedTags, savedFiles] using hD
    · rintro key n s inp ⟨hA, hB, hC, hD⟩ _
      refine ⟨0, 0, setValues s.trace ++ [0], ?_, ?_, ?_, ?_⟩
      · simp only [evalCondition, savedTags_append, savedTags, frameEvents, List.append_nil,
          hA, List.cons_append]
      · simp only [evalCondition, savedApplied_append, savedApplied, frameEvents,
          List.append_nil, hB, List.cons_append]
      · simp only [evalCondition, savedTags_append, savedTags, setValues_append, setValues,
          frameEvents, List.append_nil, List.map_append, hC]
        exact List.prefix_append _ _
      · simp [evalCondition, savedTags, savedFiles, frameEvents, hD]
    · rintro key n s inp ⟨hA, hB, hC, hD⟩ _
      refine ⟨?_, ?_, ?_, ?_⟩
      · simp only [evalCondition, savedTags_append, savedTags, setValues_append, setValues,
          frameEvents, List.append_nil, hA, List.cons_append]
      · simp only [evalCondition, savedApplied_append, savedApplied, setValues_append,
          setValues, frameEvents, List.append_nil, hB, List.cons_append]
      · simp only [evalCondition, savedTags_append, savedTags, setValues_append, setValues,
          frameEvents, List.append_nil, List.map_append, hC, List.map_cons, List.map_nil]
      · simp [evalCondition, savedTags, savedFiles, frameEvents, hD]
    · simp [start, savedTags, savedApplied, setValues, savedFiles]
  obtain ⟨e, d, S, hA, hB, hC, hD⟩ := key
  exact ⟨tail_eq_of_concat _ _ _ _ _ _ _ hA hB, head_of_concat _ _ _ _ hA,
    head_of_concat _ _ _ _ hB, hC, hD⟩

theorem main_savedTags (env : Env) :
    savedTags (main env).trace = savedTags (sweep hardCoded env).2.trace := by
  rw [main_trace]
  split <;> simp [savedTags]

theorem main_savedApplied (env : Env) :
    savedApplied (main env).trace = savedApplied (sweep hardCoded env).2.trace := by
  rw [main_trace]
  split <;> simp [savedApplied]

theorem main_savedFiles (env : Env) :
    savedFiles (main env).trace = savedFiles (sweep hardCoded env).2.trace := by
  rw [main_trace]
  split <;> simp [savedFiles]

/-- C4, at the failing input. On a device whose exposure is 10000 when the program
starts, with every grab succeeding, the first file is named for the value 0 although
no `SetValue` has been issued and the exposure in effect at its retrieval is 10000. -/
theorem first_frame_tag_differs_from_applied :
    (savedFiles (main ⟨10000, quiet, enter⟩).trace).head? = some ".//results//0.000000.bmp"
    ∧ (savedTags (main ⟨10000, quiet, enter⟩).trace).head? = some 0
    ∧ (savedApplied (main ⟨10000, quiet, enter⟩).trace).head? = some 10000
    ∧ (main ⟨10000, quiet, enter⟩).trace.take 2
        = [.waitKey1 (-1), .retrieve 10000 .grabSucceeded] := by
  decide

/-- C8, as amended. In every run of `main`, every saved frame other than the first is
named for exactly the exposure applied to the device when it was retrieved (no step
ahead); the value computed for the next request and handed to `SetValue` is the tag
plus `expoStep`, one step past the name; and every file name is `fileName` of the tag. -/
theorem file_name_is_value_before_increment (env : Env) :
    (savedTags (main env).trace).tail = (savedApplied (main env).trace).tail
    ∧ setValues (main env).trace
        <+: (savedTags (main env).trace).map (fun tag => floatAdd tag 50000)
    ∧ savedFiles (main env).trace = (savedTags (main env).trace).map fileName := by
  rw [main_savedTags, main_savedApplied, main_setValues, main_savedFiles]
  have h := sweep_tagging hardCoded env
  exact ⟨h.1, h.2.2.2.1, h.2.2.2.2⟩

/-- C8, counterexample. In the run of `main` on a device starting at exposure 10000
with every grab succeeding, the first three tags are 0, 50000, 100000, the exposures
applied at retrieval 10000, 50000, 100000, and the values computed for the next request
50000, 100000, 150000: no tag is the value for the next request, and the tags are not
one step ahead of the applied exposures. -/
theorem file_name_not_one_step_ahead :
    (savedTags (main ⟨10000, quiet, enter⟩).trace).take 3 = [0, 50000, 100000]
    ∧ (savedApplied (main ⟨10000, quiet, enter⟩).trace).take 3 = [10000, 50000, 100000]
    ∧ (setValues (main ⟨10000, quiet, enter⟩).trace).take 3 = [50000, 100000, 150000]
    ∧ ¬ (∀ p ∈ List.zip (savedTags (main ⟨10000, quiet, enter⟩).trace)
            (savedApplied (main ⟨10000, quiet, enter⟩).trace),
          p.1 = floatAdd p.2 hardCoded.expoStep)
    ∧ ¬ (∀ p ∈ List.zip (savedTags (main ⟨10000, quiet, enter⟩).trace)
            (setValues (main ⟨10000, quiet, enter⟩).trace),
          p.1 = p.2) := by
  decide

/-! ## Entering the body -/

theorem whileLoop_iterations_ge (cfg : SweepConfig) (env : Nat → IterInput) (m : Nat) :
    ∀ r s, m ≤ s.iterations → m ≤ (whileLoop cfg env r s).2.iterations := by
  refine whileLoop_rule cfg env (fun s => m ≤ s.iterations) (fun _ s => m ≤ s.iterations)
    ?_ ?_ ?_ ?_ ?_
  · intro key n s hs _
    simpa [evalCondition] using hs
  · intro key n s e hs
    exact Nat.le_succ_of_le hs
  · intro key n s hs
    exact Nat.le_succ_of_le hs
  · intro key n s inp hs _
    exact Nat.le_succ_of_le hs
  · intro key n s inp hs _
    exact Nat.le_succ_of_le hs

theorem whileLoop_entered_iff (cfg : SweepConfig) (env : Nat → IterInput) (r : Nat)
    (s : Sweep) :
    s.iterations < (whileLoop cfg env r s).2.iterations
      ↔ ((env s.iterations).key1 ≠ 0 ∧ IsGrabbing r = true) := by
  cases r with
  | zero => simp [whileLoop_zero, evalCondition, IsGrabbing]
  | succ r =>
    by_cases hk : (env s.iterations).key1 = 0
    · rw [whileLoop_cancel cfg env r s hk]
      simp [evalCondition, hk]
    · have hgrab : IsGrabbing (r + 1) = true := by simp [IsGrabbing]
      simp only [hk, hgrab, ne_eq, not_false_eq_true, and_self, iff_true]
      rw [whileLoop_enter cfg env r s hk]
      cases hr : (env s.iterations).retrieved with
      | timeout =>
        rw [loopBody_timeout _ _ _ hr]
        simp
      | grabFailed =>
        rw [loopBody_failed _ _ _ hr]
        exact whileLoop_iterations_ge cfg env (s.iterations + 1) r _ (le_refl _)
      | grabSucceeded =>
        by_cases hv : cfg.upperBound < floatAdd s.expoValue cfg.expoStep
        · rw [loopBody_break _ _ _ hr (by simpa [evalCondition] using hv)]
          simp
        · rw [loopBody_apply _ _ _ hr (by simpa [evalCondition] using hv)]
          exact whileLoop_iterations_ge cfg env (s.iterations + 1) r _ (le_refl _)

/-- C5. Non-fatal skip: from any state, a turn whose grab result reports failure leaves
`expoValue` and the exposure of the device unchanged, issues no `SetValue`, writes no
file, prints the error line, and reaches the end of the body; the loop then goes on,
and the next body is entered exactly when the next poll is non-zero and the camera is
still grabbing. -/
theorem failed_grab_is_skipped (cfg : SweepConfig) (inp : IterInput) (s : Sweep)
    (hfail : inp.retrieved = .grabFailed) :
    (loopBody cfg inp s).1 = .next
    ∧ (loopBody cfg inp s).2.expoValue = s.expoValue
    ∧ (loopBody cfg inp s).2.exposureTime = s.exposureTime
    ∧ setValues (loopBody cfg inp s).2.trace = setValues s.trace
    ∧ savedFiles (loopBody cfg inp s).2.trace = savedFiles s.trace
    ∧ printed (loopBody cfg inp s).2.trace = printed s.trace ++ [.grabError]
    ∧ ∀ (env : Nat → IterInput) (r : Nat), env s.iterations = inp → inp.key1 ≠ 0 →
        ∃ s' : Sweep,
          whileLoop cfg env (r + 1) s = whileLoop cfg env r s'
          ∧ s'.expoValue = s.expoValue
          ∧ s'.iterations = s.iterations + 1
          ∧ setValues s'.trace = setValues s.trace
          ∧ savedFiles s'.trace = savedFiles s.trace
          ∧ (s'.iterations < (whileLoop cfg env r s').2.iterations
              ↔ ((env s'.iterations).key1 ≠ 0 ∧ IsGrabbing r = true)) := by
  rw [loopBody_failed _ _ _ hfail]
  refine ⟨rfl, rfl, rfl, ?_, ?_, ?_, ?_⟩
  · simp [setValues]
  · simp [savedFiles]
  · simp [printed]
  · intro env r henv hkey
    rw [← henv] at hkey hfail
    refine ⟨{ (evalCondition (env s.iterations).key1 (r + 1) s).2 with
        iterations := s.iterations + 1,
        trace := (evalCondition (env s.iterations).key1 (r + 1) s).2.trace
          ++ [.retrieve s.exposureTime .grabFailed, .print .grabError] },
      ?_, ?_, ?_, ?_, ?_, whileLoop_entered_iff cfg env r _⟩
    · rw [whileLoop_enter cfg env r s hkey, loopBody_failed _ _ _ hfail]
      rfl
    · rfl
    · rfl
    · simp [evalCondition, setValues]
    · simp [evalCondition, savedFiles]

theorem failed_grab_is_skipped_witness :
    (loopBody hardCoded (oneFailure 0) (start hardCoded 10000)).1 = .next
    ∧ (loopBody hardCoded (oneFailure 0) (start hardCoded 10000)).2.expoValue = 0
    ∧ (loopBody hardCoded (oneFailure 0) (start hardCoded 10000)).2.exposureTime = 10000
    ∧ setValues (loopBody hardCoded (oneFailure 0) (start hardCoded 10000)).2.trace = []
    ∧ savedFiles (loopBody hardCoded (oneFailure 0) (start hardCoded 10000)).2.trace = []
    ∧ printed (loopBody hardCoded (oneFailure 0) (start hardCoded 10000)).2.trace
        = [.grabError]
    ∧ ∃ s' : Sweep,
        whileLoop hardCoded oneFailure (99 + 1) (start hardCoded 10000)
          = whileLoop hardCoded oneFailure 99 s'
        ∧ s'.expoValue = 0
        ∧ s'.iterations = 1
        ∧ setValues s'.trace = []
        ∧ savedFiles s'.trace = []
        ∧ (s'.iterations < (whileLoop hardCoded oneFailure 99 s').2.iterations
            ↔ ((oneFailure s'.iterations).key1 ≠ 0 ∧ IsGrabbing 99 = true)) := by
  have h := failed_grab_is_skipped hardCoded (oneFailure 0) (start hardCoded 10000) rfl
  exact ⟨h.1, h.2.1, h.2.2.1, h.2.2.2.1, h.2.2.2.2.1, h.2.2.2.2.2.1,
    h.2.2.2.2.2.2 oneFailure 99 rfl (by decide)⟩

/-! ## Timeouts and the exit code -/

theorem split_unique {α : Type} (p : α → Prop) (x x' : α) (u post : List α)
    (hx' : p x') (hu : ∀ y ∈ u, ¬ p y) :
    ∀ (t pre : List α), (∀ y ∈ t, ¬ p y) → t ++ x :: u = pre ++ x' :: post →
      post = u := by
  intro t
  induction t with
  | nil =>
    intro pre _ h
    cases pre with
    | nil =>
      simp only [List.nil_append, List.cons.injEq] at h
      exact h.2.symm
    | cons a pre' =>
      simp only [List.nil_append, List.cons_append, List.cons.injEq] at h
      exact absurd hx' (hu x' (by rw [h.2]; simp))
  | cons b t ih =>
    intro pre ht h
    cases pre with
    | nil =>
      simp only [List.nil_append, List.cons_append, List.cons.injEq] at h
      exact absurd hx' (by rw [← h.1]; exact ht b (by simp))
    | cons a pre' =>
      simp only [List.cons_append, List.cons.injEq] at h
      exact ih pre' (fun y hy => ht y (by simp [hy])) h.2

/-- Shape of the trace of a sweep: a timeout is the last call, and marks the stop. -/
theorem sweep_timeout_shape (cfg : SweepConfig) (env : Env) :
    ((sweep cfg env).1 = .timeout
      ∧ ∃ t e, (sweep cfg env).2.trace = t ++ [.retrieve e .timeout]
          ∧ ∀ e', Event.retrieve e' .timeout ∉ t)
    ∨ ((sweep cfg env).1 ≠ .timeout
      ∧ ∀ e', Event.retrieve e' .timeout ∉ (sweep cfg env).2.trace) := by
  refine whileLoop_rule cfg env.iter
    (fun s => ∀ e', Event.retrieve e' .timeout ∉ s.trace)
    (fun st s => (st = .timeout
        ∧ ∃ t e, s.trace = t ++ [.retrieve e .timeout]
            ∧ ∀ e', Event.retrieve e' .timeout ∉ t)
      ∨ (st ≠ .timeout ∧ ∀ e', Event.retrieve e' .timeout ∉ s.trace))
    ?_ ?_ ?_ ?_ ?_ _ _ ?_
  · intro key n s hs _
    right
    constructor
    · split <;> simp
    · intro e'
      simpa [evalCondition] using hs e'
  · intro key n s e hs
    left
    refine ⟨rfl, _, e, rfl, ?_⟩
    intro e'
    simpa [evalCondition] using hs e'
  · intro key n s hs e'
    simpa [evalCondition] using hs e'
  · intro key n s inp hs _
    right
    refine ⟨by simp, ?_⟩
    intro e'
    simpa [evalCondition, frameEvents] using hs e'
  · intro key n s inp hs _ e'
    simpa [evalCondition, frameEvents] using hs e'
  · intro e'
    simp [start]

/-- C6, as amended. Fatal stop: in every run of `main`, a timeout of `RetrieveResult` is
followed by nothing but the message of the handler and the prompt (no file is saved and
no `SetValue` is issued after it), and `main`, when standard input delivers the newline
that ends its wait for Enter, returns 1; a run without a timeout then returns 0. -/
theorem timeout_is_fatal (env : Env) :
    (∀ (e : Int) (pre post : List Event),
        (main env).trace = pre ++ Event.retrieve e .timeout :: post →
        post = [.print .exception, .print .pressEnter]
        ∧ savedFiles post = [] ∧ setValues post = []
        ∧ (Char.ofNat 10 ∈ env.stdin → (main env).exitCode = some 1))
    ∧ ((∀ e : Int, Event.retrieve e .timeout ∉ (main env).trace) →
        Char.ofNat 10 ∈ env.stdin → (main env).exitCode = some 0) := by
  rw [main_exitCode, main_trace]
  rcases sweep_timeout_shape hardCoded env with ⟨hst, t, e0, ht, hno⟩ | ⟨hst, hno⟩
  · constructor
    · intro e pre post h
      rw [if_pos hst, ht, List.append_assoc, List.singleton_append] at h
      have hpost : post = [.print .exception, .print .pressEnter] :=
        split_unique (fun y => ∃ e', y = Event.retrieve e' .timeout) _ _ _ _ ⟨e, rfl⟩
          (by simp) t pre (fun y hy ⟨e', he'⟩ => hno e' (he' ▸ hy)) h
      rw [hpost]
      refine ⟨rfl, by simp [savedFiles], by simp [setValues], ?_⟩
      intro henter
      simp [hst, henter]
    · intro h
      exfalso
      refine h e0 ?_
      rw [ht]
      simp
  · constructor
    · intro e pre post h
      exfalso
      have hmem : Event.retrieve e .timeout ∈ (sweep hardCoded env).2.trace
          ++ (if (sweep hardCoded env).1 = .timeout
              then [Event.print .exception, Event.print .pressEnter]
              else [Event.print .pressEnter]) := by
        rw [h]
        simp
      rw [if_neg hst] at hmem
      simp only [List.mem_append, List.mem_singleton] at hmem
      rcases hmem with hmem | hmem
      · exact hno e hmem
      · cases hmem
    · intro _ henter
      simp [hst, henter]

theorem timeout_is_fatal_witness :
    ([Event.print .exception, Event.print .pressEnter]
          = [.print .exception, .print .pressEnter]
      ∧ savedFiles [Event.print .exception, Event.print .pressEnter] = []
      ∧ setValues [Event.print .exception, Event.print .pressEnter] = []
      ∧ (main ⟨10000, timeoutThird, enter⟩).exitCode = some 1)
    ∧ (main ⟨10000, cancelFirst, enter⟩).exitCode = some 0 :=
  have h := (timeout_is_fatal ⟨10000, timeoutThird, enter⟩).1 100000
      [.waitKey1 (-1), .retrieve 10000 .grabSucceeded, .print (.frameInfo 0),
        .imwrite ".//results//0.000000.bmp" 0 10000 true, .waitKey100, .setValue 50000,
        .waitKey1 (-1), .retrieve 50000 .grabSucceeded, .print (.frameInfo 50000),
        .imwrite ".//results//50000.000000.bmp" 50000 50000 true, .waitKey100,
        .setValue 100000, .waitKey1 (-1)]
      [.print .exception, .print .pressEnter] (by decide)
  ⟨⟨h.1, h.2.1, h.2.2.1, h.2.2.2 (by decide)⟩,
    (timeout_is_fatal ⟨10000, cancelFirst, enter⟩).2 (by
      have ht : (main ⟨10000, cancelFirst, enter⟩).trace
          = [.waitKey1 0, .print .pressEnter] := by
        decide
      intro e
      rw [ht]
      simp) (by decide)⟩

/-- C6, counterexample. With standard input at end of file, the run in which the third
`RetrieveResult` times out reaches the handler and the prompt, and then `main` never
returns: no exit code 1; likewise the run without any timeout never returns 0. -/
theorem main_never_returns_at_end_of_input :
    Event.retrieve 100000 .timeout ∈ (main ⟨10000, timeoutThird, []⟩).trace
    ∧ (main ⟨10000, timeoutThird, []⟩).trace.drop 14
        = [.print .exception, .print .pressEnter]
    ∧ (main ⟨10000, timeoutThird, []⟩).exitCode = none
    ∧ ¬ ((main ⟨10000, timeoutThird, []⟩).exitCode = some 1)
    ∧ (sweep hardCoded ⟨10000, quiet, []⟩).1 = .boundReached
    ∧ ¬ ((main ⟨10000, quiet, []⟩).exitCode = some 0) := by
  decide

/-! ## A write that fails -/

/-- C7, as amended. For a successfully grabbed frame whose `imwrite` returns false, the
program prints nothing about it (the printed lines are those of a successful write: the
value returned is discarded), and the sweep is not aborted: the body is left the same
way, `expoValue` is advanced by `expoStep` and, if the bound is not exceeded, applied
to the device, exactly as after a successful write. -/
theorem write_failure_is_silent_and_harmless (cfg : SweepConfig) (inp : IterInput)
    (s : Sweep) (hgrab : inp.retrieved = .grabSucceeded) (hwrite : inp.imwriteOk = false) :
    Event.imwrite (fileName s.expoValue) s.expoValue s.exposureTime false
        ∈ (loopBody cfg inp s).2.trace
    ∧ printed (loopBody cfg inp s).2.trace = printed s.trace ++ [.frameInfo s.expoValue]
    ∧ printed (loopBody cfg inp s).2.trace
        = printed (loopBody cfg { inp with imwriteOk := true } s).2.trace
    ∧ (loopBody cfg inp s).1 = (loopBody cfg { inp with imwriteOk := true } s).1
    ∧ (loopBody cfg inp s).1 ≠ .throw
    ∧ (loopBody cfg inp s).2.expoValue = floatAdd s.expoValue cfg.expoStep
    ∧ (loopBody cfg inp s).2.expoValue
        = (loopBody cfg { inp with imwriteOk := true } s).2.expoValue
    ∧ (loopBody cfg inp s).2.exposureTime
        = (loopBody cfg { inp with imwriteOk := true } s).2.exposureTime
    ∧ setValues (loopBody cfg inp s).2.trace
        = setValues (loopBody cfg { inp with imwriteOk := true } s).2.trace
    ∧ (¬ cfg.upperBound < floatAdd s.expoValue cfg.expoStep →
        (loopBody cfg inp s).1 = .next
        ∧ (loopBody cfg inp s).2.exposureTime = floatAdd s.expoValue cfg.expoStep
        ∧ setValues (loopBody cfg inp s).2.trace
            = setValues s.trace ++ [floatAdd s.expoValue cfg.expoStep]) := by
  have hgrab' : ({ inp with imwriteOk := true } : IterInput).retrieved = .grabSucceeded :=
    hgrab
  by_cases hv : cfg.upperBound < floatAdd s.expoValue cfg.expoStep
  · rw [loopBody_break _ _ _ hgrab hv, loopBody_break _ _ _ hgrab' hv]
    simp [frameEvents, printed, setValues, hwrite, hv]
  · rw [loopBody_apply _ _ _ hgrab hv, loopBody_apply _ _ _ hgrab' hv]
    simp [frameEvents, printed, setValues, hwrite]

theorem write_failure_is_silent_and_harmless_witness :
    Event.imwrite (fileName 0) 0 10000 false
        ∈ (loopBody hardCoded (writeFails 0) (start hardCoded 10000)).2.trace
    ∧ printed (loopBody hardCoded (writeFails 0) (start hardCoded 10000)).2.trace
        = [] ++ [.frameInfo 0]
    ∧ printed (loopBody hardCoded (writeFails 0) (start hardCoded 10000)).2.trace
        = printed (loopBody hardCoded (quiet 0) (start hardCoded 10000)).2.trace
    ∧ (loopBody hardCoded (writeFails 0) (start hardCoded 10000)).1
        = (loopBody hardCoded (quiet 0) (start hardCoded 10000)).1
    ∧ (loopBody hardCoded (writeFails 0) (start hardCoded 10000)).1 ≠ .throw
    ∧ (loopBody hardCoded (writeFails 0) (start hardCoded 10000)).2.expoValue
        = floatAdd 0 50000
    ∧ (loopBody hardCoded (writeFails 0) (start hardCoded 10000)).2.expoValue
        = (loopBody hardCoded (quiet 0) (start hardCoded 10000)).2.expoValue
    ∧ (loopBody hardCoded (writeFails 0) (start hardCoded 10000)).2.exposureTime
        = (loopBody hardCoded (quiet 0) (start hardCoded 10000)).2.exposureTime
    ∧ setValues (loopBody hardCoded (writeFails 0) (start hardCoded 10000)).2.trace
        = setValues (loopBody hardCoded (quiet 0) (start hardCoded 10000)).2.trace
    ∧ (loopBody hardCoded (writeFails 0) (start hardCoded 10000)).1 = .next
    ∧ (loopBody hardCoded (writeFails 0) (start hardCoded 10000)).2.exposureTime
        = floatAdd 0 50000
    ∧ setValues (loopBody hardCoded (writeFails 0) (start hardCoded 10000)).2.trace
        = [] ++ [floatAdd 0 50000] := by
  have h := write_failure_is_silent_and_harmless hardCoded (writeFails 0)
    (start hardCoded 10000) rfl rfl
  exact ⟨h.1, h.2.1, h.2.2.1, h.2.2.2.1, h.2.2.2.2.1, h.2.2.2.2.2.1, h.2.2.2.2.2.2.1,
    h.2.2.2.2.2.2.2.1, h.2.2.2.2.2.2.2.2.1, h.2.2.2.2.2.2.2.2.2 (by decide)⟩

/-- C7, counterexample. With every `imwrite` failing, the turn of the first frame prints
only the frame lines, the same as when the write succeeds, and the whole run of `main`
prints the same lines as the run in which every write succeeds: no line reports a
failed write. -/
theorem write_failure_not_reported :
    Event.imwrite ".//results//0.000000.bmp" 0 10000 false
        ∈ (loopBody hardCoded (writeFails 0) (start hardCoded 10000)).2.trace
    ∧ printed (loopBody hardCoded (writeFails 0) (start hardCoded 10000)).2.trace
        = [.frameInfo 0]
    ∧ printed (loopBody hardCoded (quiet 0) (start hardCoded 10000)).2.trace
        = [.frameInfo 0]
    ∧ printed (main ⟨10000, writeFails, enter⟩).trace
        = printed (main ⟨10000, quiet, enter⟩).trace := by
  decide

/-! ## The loop condition -/

theorem whileLoop_polls (cfg : SweepConfig) (env : Nat → IterInput) (n0 i0 : Nat) :
    ∀ r s, polls s.trace + i0 = n0 + s.iterations →
      polls (whileLoop cfg env r s).2.trace + i0
        = n0 + (whileLoop cfg env r s).2.iterations
          + (if (whileLoop cfg env r s).1 = .cancelled
                ∨ (whileLoop cfg env r s).1 = .grabStopped then 1 else 0) := by
  refine whileLoop_rule cfg env
    (fun s => polls s.trace + i0 = n0 + s.iterations)
    (fun st s => polls s.trace + i0
      = n0 + s.iterations + (if st = .cancelled ∨ st = .grabStopped then 1 else 0))
    ?_ ?_ ?_ ?_ ?_
  · intro key n s hs _
    have hst : ((if key = 0 then Stop.cancelled else Stop.grabStopped) = Stop.cancelled
        ∨ (if key = 0 then Stop.cancelled else Stop.grabStopped) = Stop.grabStopped) := by
      split <;> simp
    simp only [evalCondition, polls_append, polls, hst, if_true]
    omega
  · intro key n s e hs
    simp only [evalCondition, polls_append, polls]
    simp
    omega
  · intro key n s hs
    simp only [evalCondition, polls_append, polls]
    omega
  · intro key n s inp hs _
    simp only [evalCondition, polls_append, polls, frameEvents]
    simp
    omega
  · intro key n s inp hs _
    simp only [evalCondition, polls_append, polls, frameEvents]
    omega

theorem loopBody_congr (cfg : SweepConfig) (inp inp' : IterInput) (s : Sweep)
    (hr : inp'.retrieved = inp.retrieved) (hw : inp'.imwriteOk = inp.imwriteOk) :
    loopBody cfg inp' s = loopBody cfg inp s := by
  simp [loopBody, frameEvents, hr, hw]

theorem whileLoop_congr (cfg : SweepConfig) (env env' : Nat → IterInput)
    (h : ∀ i, (env' i).key1 = (env i).key1 ∧ (env' i).retrieved = (env i).retrieved
      ∧ (env' i).imwriteOk = (env i).imwriteOk) :
    ∀ r s, whileLoop cfg env' r s = whileLoop cfg env r s := by
  intro r
  induction r with
  | zero =>
    intro s
    simp [whileLoop_zero, (h s.iterations).1]
  | succ r ih =>
    intro s
    simp only [whileLoop, (h s.iterations).1,
      loopBody_congr cfg (env s.iterations) (env' s.iterations) _ (h s.iterations).2.1
        (h s.iterations).2.2, ih]

/-- C9. Loop continuation and cancellation: from any state, the body is entered exactly
when `waitKey(1)` is non-zero and the camera is grabbing; one evaluation of the
condition polls once and assigns the conjunction to `c`; over the loop, there is one
poll per body entered (and one more when the loop is left through its condition); a
poll result 0 cancels the loop although the camera is still grabbing; and the values
returned by `waitKey(100)` have no effect on the loop. -/
theorem loop_condition_governs_entry (cfg : SweepConfig) (env : Nat → IterInput) (r : Nat)
    (s : Sweep) :
    (s.iterations < (whileLoop cfg env r s).2.iterations
      ↔ ((env s.iterations).key1 ≠ 0 ∧ IsGrabbing r = true))
    ∧ (∀ key : Int,
        ((evalCondition key r s).1 = true ↔ (key ≠ 0 ∧ IsGrabbing r = true))
        ∧ (evalCondition key r s).2.c = (if key ≠ 0 ∧ IsGrabbing r = true then 1 else 0)
        ∧ polls (evalCondition key r s).2.trace = polls s.trace + 1)
    ∧ polls (whileLoop cfg env r s).2.trace + s.iterations
        = polls s.trace + (whileLoop cfg env r s).2.iterations
          + (if (whileLoop cfg env r s).1 = .cancelled
                ∨ (whileLoop cfg env r s).1 = .grabStopped then 1 else 0)
    ∧ ((env s.iterations).key1 = 0 →
        IsGrabbing (r + 1) = true
        ∧ (whileLoop cfg env (r + 1) s).1 = .cancelled
        ∧ (whileLoop cfg env (r + 1) s).2.iterations = s.iterations
        ∧ (whileLoop cfg env (r + 1) s).2.expoValue = s.expoValue
        ∧ (whileLoop cfg env (r + 1) s).2.trace = s.trace ++ [.waitKey1 0])
    ∧ (∀ env' : Nat → IterInput,
        (∀ i, (env' i).key1 = (env i).key1 ∧ (env' i).retrieved = (env i).retrieved
          ∧ (env' i).imwriteOk = (env i).imwriteOk) →
        whileLoop cfg env' r s = whileLoop cfg env r s) := by
  refine ⟨whileLoop_entered_iff cfg env r s, ?_,
    whileLoop_polls cfg env (polls s.trace) s.iterations r s rfl, ?_,
    fun env' h => whileLoop_congr cfg env env' h r s⟩
  · intro key
    refine ⟨?_, ?_, ?_⟩
    · simp [evalCondition, loopCondition]
    · by_cases hk : key = 0 <;> cases hg : IsGrabbing r <;>
        simp [evalCondition, loopCondition, hk, hg]
    · simp [evalCondition, polls]
  · intro hk
    rw [whileLoop_cancel cfg env r s hk]
    simp [evalCondition, IsGrabbing, hk]

theorem loop_condition_governs_entry_witness :
    (IsGrabbing (97 + 1) = true
      ∧ (whileLoop hardCoded cancelThird (97 + 1)
          { expoValue := 100000, c := 1, exposureTime := 100000, iterations := 2,
            trace := [] }).1 = .cancelled
      ∧ (whileLoop hardCoded cancelThird (97 + 1)
          { expoValue := 100000, c := 1, exposureTime := 100000, iterations := 2,
            trace := [] }).2.iterations = 2
      ∧ (whileLoop hardCoded cancelThird (97 + 1)
          { expoValue := 100000, c := 1, exposureTime := 100000, iterations := 2,
            trace := [] }).2.expoValue = 100000
      ∧ (whileLoop hardCoded cancelThird (97 + 1)
          { expoValue := 100000, c := 1, exposureTime := 100000, iterations := 2,
            trace := [] }).2.trace = [] ++ [.waitKey1 0])
    ∧ whileLoop hardCoded (fun i => { cancelThird i with key100 := 113 }) 97
          { expoValue := 100000, c := 1, exposureTime := 100000, iterations := 2,
            trace := [] }
        = whileLoop hardCoded cancelThird 97
          { expoValue := 100000, c := 1, exposureTime := 100000, iterations := 2,
            trace := [] } :=
  ⟨(loop_condition_governs_entry hardCoded cancelThird 97
      { expoValue := 100000, c := 1, exposureTime := 100000, iterations := 2,
        trace := [] }).2.2.2.1 rfl,
    (loop_condition_governs_entry hardCoded cancelThird 97
      { expoValue := 100000, c := 1, exposureTime := 100000, iterations := 2,
        trace := [] }).2.2.2.2 (fun i => { cancelThird i with key100 := 113 })
      (fun _ => ⟨rfl, rfl, rfl⟩)⟩

/-! ## The sweep written in `main` -/

theorem floatAdd_exact (a b : Int) (hlo : -2 ^ 24 < a + b) (hhi : a + b < 2 ^ 24) :
    floatAdd a b = a + b := toFloat_exact _ hlo hhi

theorem hardCoded_good_run (env : Env)
    (hgrab : ∀ i, (env.iter i).retrieved = .grabSucceeded)
    (hpoll : ∀ i, (env.iter i).key1 ≠ 0) :
    savedTags (sweep hardCoded env).2.trace
        = [0, 50000, 100000, 150000, 200000, 250000, 300000, 350000, 400000, 450000,
           500000, 550000, 600000, 650000, 700000, 750000, 800000, 850000, 900000,
           950000, 1000000]
    ∧ setValues (sweep hardCoded env).2.trace
        = [50000, 100000, 150000, 200000, 250000, 300000, 350000, 400000, 450000,
           500000, 550000, 600000, 650000, 700000, 750000, 800000, 850000, 900000,
           950000, 1000000]
    ∧ (sweep hardCoded env).1 = .boundReached
    ∧ (sweep hardCoded env).2.expoValue = 1050000
    ∧ (sweep hardCoded env).2.iterations = 21 := by
  simp [sweep, start, hardCoded, c_countOfImagesToGrab, whileLoop_good, hpoll, hgrab,
    floatAdd_exact, frameEvents, savedTags, setValues]

theorem hardCoded_good_run_written (env : Env)
    (hgrab : ∀ i, (env.iter i).retrieved = .grabSucceeded)
    (hpoll : ∀ i, (env.iter i).key1 ≠ 0)
    (hwrite : ∀ i, (env.iter i).imwriteOk = true) :
    writtenFiles (sweep hardCoded env).2.trace = savedFiles (sweep hardCoded env).2.trace := by
  simp [sweep, start, hardCoded, c_countOfImagesToGrab, whileLoop_good, hpoll, hgrab, hwrite,
    floatAdd_exact, frameEvents, savedFiles, writtenFiles]

@[simp] theorem writtenFiles_append (a b : List Event) :
    writtenFiles (a ++ b) = writtenFiles a ++ writtenFiles b := by
  induction a with
  | nil => rfl
  | cons e t ih =>
    cases e with
    | imwrite file tag applied ok => cases ok <;> simp [writtenFiles, ih]
    | _ => simp [writtenFiles, ih]

theorem main_writtenFiles (env : Env) :
    writtenFiles (main env).trace = writtenFiles (sweep hardCoded env).2.trace := by
  rw [main_trace]
  split <;> simp [writtenFiles]

/-- C10, as amended. The sweep written in `main`: when every grab succeeds and no poll
returns 0, `imwrite` is called for exactly 21 frames, tagged `50000 * k` for
`k = 0..20` in increasing order, each tag a `float` and each sum `tag + 50000` exact;
`SetValue` is called exactly 20 times, with `50000 * k` for `k = 1..20`; the loop is
left by the `break` with `expoValue = 1050000` after 21 turns, fewer than the 100 frames
requested; the 21 file names are `fileName` of the tags and pairwise distinct; and when
every `imwrite` returns true, the files written are exactly these 21. -/
theorem hard_coded_sweep (env : Env)
    (hgrab : ∀ i, (env.iter i).retrieved = .grabSucceeded)
    (hpoll : ∀ i, (env.iter i).key1 ≠ 0) :
    savedTags (main env).trace = (List.range 21).map (fun k => 50000 * (k : Int))
    ∧ (savedTags (main env).trace).length = 21
    ∧ (savedTags (main env).trace).Pairwise (fun a b => a < b)
    ∧ (∀ tag ∈ savedTags (main env).trace,
        toFloat tag = tag ∧ floatAdd tag 50000 = tag + 50000)
    ∧ setValues (main env).trace = (List.range 20).map (fun k => 50000 * ((k : Int) + 1))
    ∧ (setValues (main env).trace).length = 20
    ∧ (sweep hardCoded env).1 = .boundReached
    ∧ (sweep hardCoded env).2.expoValue = 1050000
    ∧ (sweep hardCoded env).2.iterations = 21
    ∧ (sweep hardCoded env).2.iterations < c_countOfImagesToGrab
    ∧ savedFiles (main env).trace = (savedTags (main env).trace).map fileName
    ∧ (savedFiles (main env).trace).Nodup
    ∧ ((∀ i, (env.iter i).imwriteOk = true) →
        writtenFiles (main env).trace = savedFiles (main env).trace
        ∧ (writtenFiles (main env).trace).length = 21
        ∧ (writtenFiles (main env).trace).Nodup) := by
  obtain ⟨htags, hsets, hstop, hval, hit⟩ := hardCoded_good_run env hgrab hpoll
  have hfiles := (sweep_tagging hardCoded env).2.2.2.2
  have hwritten := hardCoded_good_run_written env hgrab hpoll
  rw [main_savedTags, main_setValues, main_savedFiles, main_writtenFiles, hfiles, htags,
    hsets, hstop, hval, hit]
  rw [hfiles, htags] at hwritten
  refine ⟨by decide, by decide, by decide, by decide, by decide, by decide, rfl, rfl, rfl,
    by decide, rfl, by decide, ?_⟩
  intro hwrite
  rw [hwritten hwrite]
  exact ⟨rfl, by decide, by decide⟩

theorem hard_coded_sweep_witness :
    (∀ i, (quiet i).retrieved = .grabSucceeded) ∧ (∀ i, (quiet i).key1 ≠ 0)
    ∧ (∀ i, (quiet i).imwriteOk = true)
    ∧ savedTags (main ⟨10000, quiet, enter⟩).trace
        = (List.range 21).map (fun k => 50000 * (k : Int))
    ∧ (toFloat 1000000 = 1000000 ∧ floatAdd 1000000 50000 = 1000000 + 50000)
    ∧ (savedFiles (main ⟨10000, quiet, enter⟩).trace).Nodup
    ∧ (writtenFiles (main ⟨10000, quiet, enter⟩).trace
          = savedFiles (main ⟨10000, quiet, enter⟩).trace
        ∧ (writtenFiles (main ⟨10000, quiet, enter⟩).trace).length = 21
        ∧ (writtenFiles (main ⟨10000, quiet, enter⟩).trace).Nodup) :=
  have h := hard_coded_sweep ⟨10000, quiet, enter⟩ (fun _ => rfl) (fun _ => by simp [quiet])
  ⟨fun _ => rfl, fun _ => by simp [quiet], fun _ => rfl, h.1, h.2.2.2.1 1000000 (by decide),
    h.2.2.2.2.2.2.2.2.2.2.2.1, h.2.2.2.2.2.2.2.2.2.2.2.2 (fun _ => rfl)⟩

/-- C10, counterexample. With every grab succeeding and no poll returning 0, but every
`imwrite` returning false, `imwrite` is called 21 times and no frame is saved. -/
theorem no_frame_saved_when_writes_fail :
    (∀ i, (writeFails i).retrieved = .grabSucceeded) ∧ (∀ i, (writeFails i).key1 ≠ 0)
    ∧ (sweep hardCoded ⟨10000, writeFails, enter⟩).1 = .boundReached
    ∧ (savedFiles (main ⟨10000, writeFails, enter⟩).trace).length = 21
    ∧ writtenFiles (main ⟨10000, writeFails, enter⟩).trace = []
    ∧ ¬ ((writtenFiles (main ⟨10000, writeFails, enter⟩).trace).length = 21) :=
  ⟨fun _ => rfl, fun _ => by simp [writeFails], by decide⟩

end A1

